import Mathlib

/-!
Verification development for the open311-messages message model
(src/lib/message.js): a shallow embedding of the message record, the
pre-validate normalization hook, the send / queue / resend / process
operations, and the criteria helpers, together with theorems about the
claims of the specification.
-/

namespace Open311

/-- Mime type constant MIME_TEXT from the source. -/
def MIME_TEXT : String := "text/plain"

/-- Mime type constant MIME_HTML from the source. -/
def MIME_HTML : String := "text/html"

/-- State constant STATE_UNKNOWN from the source. -/
def STATE_UNKNOWN : String := "Unknown"

/-- State constant STATE_DELIVERED from the source. -/
def STATE_DELIVERED : String := "Delivered"

/-- Send mode constant SEND_MODE_PULL from the source. -/
def SEND_MODE_PULL : String := "Pull"

/-- Send mode constant SEND_MODE_PUSH from the source. -/
def SEND_MODE_PUSH : String := "Push"

/-- The field names picked for the hash fingerprint (HASH_FIELDS in the
source). -/
def HASH_FIELDS : List String :=
  ["type", "direction", "from", "to",
   "transport", "queueName", "body", "priority"]

/-- A JavaScript value that is either a single string or an array of
strings, as can appear in the to, cc and bcc fields before
normalization. -/
inductive SVal where
  | str (s : String)
  | arr (l : List String)
deriving DecidableEq

/-- An opaque result or error payload (the Mixed values stored in the
result field, the error objects passed around, and transport results). -/
inductive RVal where
  | msgSuccess
  | errTriple (code : Option String) (message : Option String) (status : Option Nat)
  | withState (state : String)
  | raw (tag : String)
deriving DecidableEq

/-- An error reported by a transport send callback: either an Error
instance carrying code, message and status properties, or an arbitrary
non-Error value. -/
inductive JsSendError where
  | errInst (code : Option String) (message : Option String) (status : Option Nat)
  | nonError (v : RVal)
deriving DecidableEq

/-- The message record of the MessageSchema. Unset optional fields are
none; the required string fields queueName and hash use the empty string
for the unset (falsy) JavaScript value, matching the truthiness tests the
source performs on them. The response field is the plain property the
fake send path assigns on the instance. -/
structure Message where
  id : String
  type : String
  mime : Option String
  direction : String
  state : String
  mode : String
  from_ : String
  to_ : Option SVal
  cc : Option SVal
  bcc : Option SVal
  subject : Option String
  body : String
  sentAt : Option Nat
  failedAt : Option Nat
  result : Option RVal
  transport : String
  queueName : String
  priority : String
  options : Option RVal
  hash : String
  response : Option RVal
deriving DecidableEq

/-- Events emitted on the queue event sink. -/
inductive QEvent where
  | sentError (e : RVal)
  | sentSuccess (m : Message)
  | queueError (e : RVal)
  | queueSuccess (m : Message)
deriving DecidableEq

/-- Outcome of persisting a record with save. -/
inductive SaveOutcome where
  | ok
  | fail (e : RVal)
deriving DecidableEq

/-- Behaviour of a resolved transport for one send call. -/
inductive TransportOutcome where
  | failure (e : JsSendError)
  | success (r : RVal)
deriving DecidableEq

/-- A transport as _send sees it: whether require resolves it, whether it
exposes a _queue event sink, and the outcome its send callback reports. -/
structure Transport where
  resolvable : Bool
  hasQueue : Bool
  outcome : TransportOutcome
deriving DecidableEq

/-- True when the second list starts with the first. -/
def charListHasPrefix : List Char → List Char → Bool
  | [], _ => true
  | _ :: _, [] => false
  | p :: ps, c :: cs => p == c && charListHasPrefix ps cs

/-- True when the list contains the pattern as a contiguous sublist. -/
def charListContains (pat : List Char) : List Char → Bool
  | [] => charListHasPrefix pat []
  | c :: cs => charListHasPrefix pat (c :: cs) || charListContains pat cs

/-- True when the haystack contains the pattern as a substring. -/
def strContains (s pat : String) : Bool :=
  charListContains pat.data s.data

/-- Model of the external is-html dependency: detects HTML markup in a
string by looking for common HTML tags. The claims rely only on it being
a fixed decidable predicate on the body. -/
def isHtml (s : String) : Bool :=
  ["html", "head", "body", "div", "p", "span", "a", "br",
   "b", "i", "strong", "em", "ul", "ol", "li", "table",
   "h1", "h2", "h3", "img"].any (fun t =>
    strContains s ("<" ++ t ++ ">") || strContains s ("<" ++ t ++ " ") ||
    strContains s ("</" ++ t ++ ">") || strContains s ("<" ++ t ++ "/>"))

/-- JavaScript truthiness test for an optional string field: undefined
and the empty string are falsy. -/
def jsFalsyOpt : Option String → Bool
  | none => true
  | some s => s == ""

/-- The to / cc / bcc coercion of the preValidate hook: a truthy single
string becomes a one-element array; everything else is left as is. The
empty string is falsy in JavaScript, so the hook skips it. -/
def normalizeRecipients : Option SVal → Option SVal
  | some (SVal.str s) => if s == "" then some (SVal.str s) else some (SVal.arr [s])
  | v => v

/-- Encoding of an optional string-or-array value used by the hash. -/
def encodeOptSVal : Option SVal → String
  | none => "#none"
  | some (SVal.str s) => "#str:" ++ s
  | some (SVal.arr l) => "#arr:" ++ String.intercalate "," l

/-- Model of the external object-hash dependency applied to the pick of
HASH_FIELDS: a deterministic fingerprint computed from exactly the eight
picked fields (type, direction, from, to, transport, queueName, body,
priority). The claims rely only on the hash being a function of this
projection. -/
def computeHash (m : Message) : String :=
  "oh:" ++ m.type ++ "|" ++ m.direction ++ "|" ++ m.from_ ++ "|" ++
  encodeOptSVal m.to_ ++ "|" ++ m.transport ++ "|" ++ m.queueName ++ "|" ++
  m.body ++ "|" ++ m.priority

/-- The first two steps of the preValidate hook: coerce to, cc and bcc
single strings to arrays, and derive queueName from the lower-cased type
when queueName is unset (falsy). -/
def normalizeAddrQueue (m : Message) : Message :=
  { m with
    to_ := normalizeRecipients m.to_,
    cc := normalizeRecipients m.cc,
    bcc := normalizeRecipients m.bcc,
    queueName := if m.queueName == "" then m.type.toLower else m.queueName }

/-- The preValidate hook of MessageSchema: recipient coercion, queueName
derivation, hash assignment when the hash is unset or empty, and the mime
assignment, in source order. Note the mime branch: only when mime is
falsy and the body is HTML does it assign text/html; in every other case
it assigns text/plain. -/
def preValidate (m : Message) : Message :=
  let m1 := normalizeAddrQueue m
  { m1 with
    hash := if m.hash == "" then computeHash m1 else m.hash,
    mime := if jsFalsyOpt m.mime && isHtml m.body then some MIME_HTML
            else some MIME_TEXT }

/-- The value the success branch of _send assigns to state: the state
carried by the transport result when present, else STATE_DELIVERED. -/
def resultState : RVal → String
  | RVal.withState s => s
  | _ => STATE_DELIVERED

/-- The error normalization of _send: an Error instance is replaced by
the plain object of its code, message and status properties; any other
error value is stored as is. -/
def normalizeSendError : JsSendError → RVal
  | JsSendError.errInst c msg st => RVal.errTriple c msg st
  | JsSendError.nonError v => v

/-- Everything one call of an instance send operation produces: the
arguments the completion callback receives, the mutated record, the
events emitted on the transport event sink, and whether the transport
send function was invoked. -/
structure SendOut where
  cbError : Option RVal
  cbMessage : Option Message
  record : Message
  events : List QEvent
  transportInvoked : Bool
deriving DecidableEq

/-- The _send instance method: resolve the transport (a resolution
failure reaches the callback as the caught error, before any mutation);
on a transport error set failedAt, normalize the error, emit the
message sent error event when the transport exposes a queue, and store
the error as result; on success set sentAt, state and result. Then save
the record: the completion callback receives the outcome of save (on
save success the queue, when present, is also notified with a message
sent success event). -/
def msend (m : Message) (t : Transport) (now : Nat) (save : SaveOutcome) : SendOut :=
  if t.resolvable = false then
    { cbError := some (RVal.raw "ResolutionError"), cbMessage := none,
      record := m, events := [], transportInvoked := false }
  else
    match t.outcome with
    | TransportOutcome.failure e =>
      let e' := normalizeSendError e
      let m1 : Message := { m with failedAt := some now, result := some e' }
      let evs := if t.hasQueue then [QEvent.sentError e'] else []
      match save with
      | SaveOutcome.ok =>
        { cbError := none, cbMessage := some m1, record := m1,
          events := evs ++ (if t.hasQueue then [QEvent.sentSuccess m1] else []),
          transportInvoked := true }
      | SaveOutcome.fail se =>
        { cbError := some se, cbMessage := none, record := m1,
          events := evs, transportInvoked := true }
    | TransportOutcome.success r =>
      let m1 : Message := { m with sentAt := some now, state := resultState r,
                                   result := some r }
      match save with
      | SaveOutcome.ok =>
        { cbError := none, cbMessage := some m1, record := m1,
          events := if t.hasQueue then [QEvent.sentSuccess m1] else [],
          transportInvoked := true }
      | SaveOutcome.fail se =>
        { cbError := some se, cbMessage := none, record := m1,
          events := [], transportInvoked := true }

/-- The send instance method: with the fake option it sets sentAt to
now, attaches the synthetic success payload on the response property and
saves, never touching a transport; otherwise it delegates to _send. -/
def send (m : Message) (fake : Bool) (t : Transport) (now : Nat) (save : SaveOutcome) : SendOut :=
  if fake then
    let m1 : Message := { m with sentAt := some now, response := some RVal.msgSuccess }
    match save with
    | SaveOutcome.ok =>
      { cbError := none, cbMessage := some m1, record := m1,
        events := [], transportInvoked := false }
    | SaveOutcome.fail se =>
      { cbError := some se, cbMessage := none, record := m1,
        events := [], transportInvoked := false }
  else msend m t now save

/-- A job created on the kue queue by the queue instance method. -/
structure QueueJob where
  queueName : String
  payload : Message
  priority : String
  attempts : Nat
  backoff : String
deriving DecidableEq

/-- Everything one call of the queue instance method produces. -/
structure QueueOut where
  record : Message
  events : List QEvent
  jobs : List QueueJob
deriving DecidableEq

/-- The queue instance method: merge the options with the defaults of 3
attempts and exponential backoff, force state Unknown for a Pull mode
record, save it, and on save success either emit the queue success event
directly (Pull mode, no job) or create one job carrying the saved record
with the record priority and the merged options (Push mode), whose own
save decides between the queue success and queue error events. -/
def queue (m : Message) (attempts : Option Nat) (backoff : Option String)
    (save : SaveOutcome) (jobSaveOk : Bool) : QueueOut :=
  let att := attempts.getD 3
  let bo := backoff.getD "exponential"
  let m1 := if m.mode == SEND_MODE_PULL then { m with state := STATE_UNKNOWN } else m
  match save with
  | SaveOutcome.fail e => { record := m1, events := [QEvent.queueError e], jobs := [] }
  | SaveOutcome.ok =>
    if m1.mode == SEND_MODE_PULL then
      { record := m1, events := [QEvent.queueSuccess m1], jobs := [] }
    else
      { record := m1,
        events := [if jobSaveOk then QEvent.queueSuccess m1
                   else QEvent.queueError (RVal.raw "JobSaveError")],
        jobs := [{ queueName := m1.queueName, payload := m1,
                   priority := m1.priority, attempts := att, backoff := bo }] }

/-- A mongo style criteria value: null, a string, a number, or the
object carrying a single ne operator (the only operator object the
source builds). -/
inductive QVal where
  | vnull
  | vstr (s : String)
  | vnum (n : Nat)
  | vne (v : QVal)
deriving DecidableEq

/-- A mongoose criteria object, as an association list with unique
keys. -/
abbrev Criteria : Type := List (String × QVal)

/-- Lookup of a key in a criteria object. -/
def lookupC : Criteria → String → Option QVal
  | [], _ => none
  | (k, v) :: rest, key => if k == key then some v else lookupC rest key

/-- Model of the lodash merge of two criteria values: two plain objects
merge recursively, any other source value overrides the destination by
assignment (null included). -/
def mergeQVal : QVal → QVal → QVal
  | QVal.vne a, QVal.vne b => QVal.vne (mergeQVal a b)
  | _, s => s

/-- Model of the lodash merge of two criteria objects: keys of the
destination keep their position with the source value merged over them,
and keys only in the source are appended. Source values win. -/
def mergeCriteria (dst src : Criteria) : Criteria :=
  dst.map (fun kv =>
    match lookupC src kv.1 with
    | some sv => (kv.1, mergeQVal kv.2 sv)
    | none => kv) ++
  src.filter (fun kv => (lookupC dst kv.1).isNone)

/-- The encoding of a message field as a criteria-comparable value,
following the persisted record layout (absent optional values are
null). -/
def fieldVal (m : Message) : String → QVal
  | "type" => QVal.vstr m.type
  | "mime" => match m.mime with | none => QVal.vnull | some s => QVal.vstr s
  | "direction" => QVal.vstr m.direction
  | "state" => QVal.vstr m.state
  | "mode" => QVal.vstr m.mode
  | "from" => QVal.vstr m.from_
  | "body" => QVal.vstr m.body
  | "sentAt" => match m.sentAt with | none => QVal.vnull | some t => QVal.vnum t
  | "failedAt" => match m.failedAt with | none => QVal.vnull | some t => QVal.vnum t
  | "transport" => QVal.vstr m.transport
  | "queueName" => QVal.vstr m.queueName
  | "priority" => QVal.vstr m.priority
  | "hash" => QVal.vstr m.hash
  | "id" => QVal.vstr m.id
  | _ => QVal.vnull

/-- Matching of one criteria value against a field value, following the
store contract: a plain value matches by equality (null matches an
absent field), and the ne operator object matches by disequality. -/
def matchQVal (fv : QVal) : QVal → Bool
  | QVal.vne v => !(fv == v)
  | v => fv == v

/-- Matching of a whole criteria object against a record. -/
def matchesCriteria (c : Criteria) (m : Message) : Bool :=
  c.all (fun kv => matchQVal (fieldVal m kv.1) kv.2)

/-- The find operation of the store contract over a list of records. -/
def findC (store : List Message) (c : Criteria) : List Message :=
  store.filter (matchesCriteria c)

/-- The criteria built by the unsent static method: the unsent predicate
(sentAt null) lodash-merged with the caller criteria, caller last. -/
def unsentCriteria (criteria : Criteria) : Criteria :=
  mergeCriteria [("sentAt", QVal.vnull)] criteria

/-- The criteria built by the sent static method: the sent predicate
(sentAt ne null) lodash-merged with the caller criteria, caller last. -/
def sentCriteria (criteria : Criteria) : Criteria :=
  mergeCriteria [("sentAt", QVal.vne QVal.vnull)] criteria

/-- The unsent static method: find with the merged unsent criteria. -/
def unsent (store : List Message) (criteria : Criteria) : List Message :=
  findC store (unsentCriteria criteria)

/-- The sent static method: find with the merged sent criteria. -/
def sentQ (store : List Message) (criteria : Criteria) : List Message :=
  findC store (sentCriteria criteria)

/-- The effect of one resend call on one stored record: records matched
by the merged unsent criteria are replaced by the record their send
produced, the others are untouched. -/
def resendTouch (criteria : Criteria) (tr : Message → Transport) (now : Nat)
    (sv : Message → SaveOutcome) (m : Message) : Message :=
  if matchesCriteria (unsentCriteria criteria) m then
    (send m false (tr m) now (sv m)).record
  else m

/-- The resend static method: find the records matching the merged
unsent criteria, invoke send on each of them in parallel and aggregate
the outcomes (an empty match yields the empty aggregate), leaving every
other stored record untouched. -/
def resend (store : List Message) (criteria : Criteria) (tr : Message → Transport)
    (now : Nat) (sv : Message → SaveOutcome) : List SendOut × List Message :=
  ((unsent store criteria).map (fun m => send m false (tr m) now (sv m)),
   store.map (resendTouch criteria tr now sv))

/-- The findById lookup of the store contract. -/
def findById (store : List Message) (mid : String) : Option Message :=
  store.find? (fun m => m.id == mid)

/-- The completion of one worker process call plus the resulting
store. -/
structure ProcessOut where
  cbError : Option RVal
  cbMessage : Option Message
  store : List Message
deriving DecidableEq

/-- The process static method (worker entry point): look the record up
by the id embedded in the job payload; when found, send it and hand the
callback outcome of send to the job completion; when missing, complete
successfully without touching anything. -/
def process (store : List Message) (jobDataId : String) (t : Transport)
    (now : Nat) (save : SaveOutcome) : ProcessOut :=
  match findById store jobDataId with
  | some m =>
    let out := send m false t now save
    { cbError := out.cbError, cbMessage := out.cbMessage,
      store := match save with
        | SaveOutcome.ok => store.map (fun x => if x.id == m.id then out.record else x)
        | SaveOutcome.fail _ => store }
  | none => { cbError := none, cbMessage := none, store := store }

/-- A plain example record, as a caller would construct it before
validation: required fields given, everything else unset. -/
def mEx : Message :=
  { id := "m1", type := "EMAIL", mime := none, direction := "Outbound",
    state := "Unknown", mode := "Push", from_ := "a@x.com",
    to_ := some (SVal.str "b@x.com"), cc := none, bcc := none, subject := none,
    body := "hi", sentAt := none, failedAt := none, result := none,
    transport := "echo", queueName := "", priority := "normal", options := none,
    hash := "", response := none }

/-- An example record that has already been sent. -/
def mSentEx : Message :=
  { mEx with id := "m2", sentAt := some 5, hash := "h2", queueName := "email" }

/-- The to field of a pre-validated record is its normalized to
field. -/
theorem preValidate_to (m : Message) :
    (preValidate m).to_ = normalizeRecipients m.to_ := rfl

/-- The cc field of a pre-validated record is its normalized cc
field. -/
theorem preValidate_cc (m : Message) :
    (preValidate m).cc = normalizeRecipients m.cc := rfl

/-- The bcc field of a pre-validated record is its normalized bcc
field. -/
theorem preValidate_bcc (m : Message) :
    (preValidate m).bcc = normalizeRecipients m.bcc := rfl

/-- The mime field of a pre-validated record is decided by the mime
branch of the hook alone. -/
theorem preValidate_mime (m : Message) :
    (preValidate m).mime =
      (if jsFalsyOpt m.mime && isHtml m.body then some MIME_HTML
       else some MIME_TEXT) := rfl

/-- The hash field of a pre-validated record is recomputed exactly when
the incoming hash is empty. -/
theorem preValidate_hash (m : Message) :
    (preValidate m).hash =
      (if m.hash == "" then computeHash (normalizeAddrQueue m) else m.hash) := rfl

/-- C2 counterexample: a record whose mime field is already set to
text/html and whose body is HTML markup comes out of pre-validate
normalization with mime text/plain — the already set value is not left
unchanged. -/
theorem c2_counterexample :
    ({ mEx with mime := some MIME_HTML, body := "<p>hi</p>" } : Message).mime
        = some MIME_HTML ∧
    (preValidate { mEx with mime := some MIME_HTML, body := "<p>hi</p>" }).mime
        = some MIME_TEXT ∧
    MIME_TEXT ≠ MIME_HTML := by
  refine ⟨rfl, ?_, by decide⟩
  rw [preValidate_mime]
  rfl

/-- C2 (amended): at pre-persist normalization, when mime is unset and
the body contains HTML markup, mime becomes text/html; in every other
case — body without HTML markup, or a mime value that is already set,
whatever it is — mime is assigned text/plain. -/
theorem c2_mime_derivation (m : Message) :
    (jsFalsyOpt m.mime = true → isHtml m.body = true →
      (preValidate m).mime = some MIME_HTML) ∧
    (jsFalsyOpt m.mime = true → isHtml m.body = false →
      (preValidate m).mime = some MIME_TEXT) ∧
    (jsFalsyOpt m.mime = false → (preValidate m).mime = some MIME_TEXT) := by
  refine ⟨?_, ?_, ?_⟩
  · intro h1 h2; rw [preValidate_mime, h1, h2]; rfl
  · intro h1 h2; rw [preValidate_mime, h1, h2]; rfl
  · intro h1; rw [preValidate_mime, h1]; rfl

/-- C2 witness: the unset-mime record with the HTML body gets mime
text/html, and the unset-mime record with the plain body gets mime
text/plain. -/
theorem c2_witness :
    (preValidate { mEx with body := "<p>hi</p>" }).mime = some MIME_HTML ∧
    (preValidate mEx).mime = some MIME_TEXT :=
  ⟨(c2_mime_derivation { mEx with body := "<p>hi</p>" }).1 rfl (by decide),
   (c2_mime_derivation mEx).2.1 rfl (by decide)⟩

/-- C4: the hash fingerprint is a function of exactly the projection to
type, direction, from, to, transport, queueName, body and priority: two
records that agree on those eight fields get the identical hash, whatever
their other fields hold. -/
theorem c4_hash_noninterference (m1 m2 : Message)
    (htype : m1.type = m2.type) (hdir : m1.direction = m2.direction)
    (hfrom : m1.from_ = m2.from_) (hto : m1.to_ = m2.to_)
    (htr : m1.transport = m2.transport) (hq : m1.queueName = m2.queueName)
    (hbody : m1.body = m2.body) (hpr : m1.priority = m2.priority) :
    computeHash m1 = computeHash m2 := by
  unfold computeHash
  rw [htype, hdir, hfrom, hto, htr, hq, hbody, hpr]

/-- C4 witness: two concrete records differing in state, subject,
options, sentAt and result but agreeing on the eight hash fields have
the identical hash. -/
theorem c4_witness :
    computeHash { mEx with state := "Queued", subject := some "s",
                           options := some (RVal.raw "o") }
      = computeHash { mEx with sentAt := some 9, result := some RVal.msgSuccess,
                               failedAt := some 3 } :=
  c4_hash_noninterference _ _ rfl rfl rfl rfl rfl rfl rfl rfl

/-- C9 counterexample: a record whose to field is the single (empty)
string is left with that string by pre-persist normalization — it is not
coerced into a one-element sequence, because the empty string is falsy
and the hook only coerces truthy strings. -/
theorem c9_counterexample :
    ({ mEx with to_ := some (SVal.str "") } : Message).to_ = some (SVal.str "") ∧
    (preValidate { mEx with to_ := some (SVal.str "") }).to_ = some (SVal.str "") ∧
    (some (SVal.str "") : Option SVal) ≠ some (SVal.arr [""]) := by
  refine ⟨rfl, ?_, by decide⟩
  rw [preValidate_to]
  rfl

/-- C9 (amended): at pre-persist normalization a to, cc or bcc field
given as a single non-empty string is coerced into the one-element
sequence holding that string; the empty string (falsy in the guard of
the hook) is left unchanged, and a field already given as a sequence is left
unchanged. -/
theorem c9_recipient_coercion (m : Message) :
    (∀ s : String, s ≠ "" → m.to_ = some (SVal.str s) →
        (preValidate m).to_ = some (SVal.arr [s])) ∧
    (∀ s : String, s ≠ "" → m.cc = some (SVal.str s) →
        (preValidate m).cc = some (SVal.arr [s])) ∧
    (∀ s : String, s ≠ "" → m.bcc = some (SVal.str s) →
        (preValidate m).bcc = some (SVal.arr [s])) ∧
    (∀ l : List String, m.to_ = some (SVal.arr l) →
        (preValidate m).to_ = some (SVal.arr l)) ∧
    (∀ l : List String, m.cc = some (SVal.arr l) →
        (preValidate m).cc = some (SVal.arr l)) ∧
    (∀ l : List String, m.bcc = some (SVal.arr l) →
        (preValidate m).bcc = some (SVal.arr l)) := by
  refine ⟨?_, ?_, ?_, ?_, ?_, ?_⟩
  · intro s hs h; rw [preValidate_to, h]
    simp [normalizeRecipients, hs]
  · intro s hs h; rw [preValidate_cc, h]
    simp [normalizeRecipients, hs]
  · intro s hs h; rw [preValidate_bcc, h]
    simp [normalizeRecipients, hs]
  · intro l h; rw [preValidate_to, h]; rfl
  · intro l h; rw [preValidate_cc, h]; rfl
  · intro l h; rw [preValidate_bcc, h]; rfl

/-- C9 witness: the example record with the single non-empty string to
field comes out with the one-element sequence. -/
theorem c9_witness :
    (preValidate mEx).to_ = some (SVal.arr ["b@x.com"]) :=
  (c9_recipient_coercion mEx).1 "b@x.com" (by decide) rfl

/-- C10: a non-empty hash survives every core operation unchanged:
pre-validate normalization keeps it (it only recomputes an unset or
empty hash, and then assigns the fingerprint of the normalized record),
and _send, send and queue never write the hash field at all, whatever
the transport outcome, the save outcome or the options. -/
theorem c10_hash_preserved (m : Message) (hne : m.hash ≠ "") :
    (preValidate m).hash = m.hash ∧
    (m.hash = "" → (preValidate m).hash = computeHash (normalizeAddrQueue m)) ∧
    (∀ (t : Transport) (now : Nat) (save : SaveOutcome),
      (msend m t now save).record.hash = m.hash) ∧
    (∀ (fake : Bool) (t : Transport) (now : Nat) (save : SaveOutcome),
      (send m fake t now save).record.hash = m.hash) ∧
    (∀ (att : Option Nat) (bo : Option String) (save : SaveOutcome) (jobOk : Bool),
      (queue m att bo save jobOk).record.hash = m.hash) := by
  refine ⟨?_, ?_, ?_, ?_, ?_⟩
  · rw [preValidate_hash]
    simp [hne]
  · intro h; exact absurd h hne
  · intro t now save
    unfold msend
    rcases t with ⟨res, hq, outc⟩
    cases res <;> cases outc <;> cases save <;> rfl
  · intro fake t now save
    unfold send
    cases fake
    · simp only [if_neg]
      unfold msend
      rcases t with ⟨res, hq, outc⟩
      cases res <;> cases outc <;> cases save <;> rfl
    · cases save <;> rfl
  · intro att bo save jobOk
    unfold queue
    cases save <;> by_cases hm : m.mode == SEND_MODE_PULL <;> simp [hm]

/-- C10 witness: the already-sent example record (hash h2) keeps its
hash through pre-validation, a failing real send, a fake send and a
queue call. -/
theorem c10_witness :
    (preValidate mSentEx).hash = "h2" ∧
    (msend mSentEx ⟨true, true, TransportOutcome.failure
        (JsSendError.errInst (some "E") (some "boom") (some 500))⟩ 7
        SaveOutcome.ok).record.hash = "h2" ∧
    (send mSentEx true ⟨true, false, TransportOutcome.success RVal.msgSuccess⟩ 7
        SaveOutcome.ok).record.hash = "h2" ∧
    (queue mSentEx none none SaveOutcome.ok true).record.hash = "h2" := by
  have h := c10_hash_preserved mSentEx (by decide)
  exact ⟨h.1, h.2.2.1 _ 7 SaveOutcome.ok, h.2.2.2.1 true _ 7 SaveOutcome.ok,
         h.2.2.2.2 none none SaveOutcome.ok true⟩

/-- A concrete failing transport with an event sink, reporting a
structured error. -/
def tFailEx : Transport :=
  ⟨true, true, TransportOutcome.failure
    (JsSendError.errInst (some "ECONN") (some "send failed") (some 500))⟩

/-- C1 counterexample: against the concrete failing transport, with the
save succeeding, _send records failedAt and the normalized error on the
record — but the completion callback receives no error at all (the
waterfall hands the transport callback a null error, so the callback sees
only the save outcome), contradicting the claim that the normalized error
is propagated to the completion callback of the caller. -/
theorem c1_counterexample :
    (msend mSentEx tFailEx 7 SaveOutcome.ok).record.failedAt = some 7 ∧
    (msend mSentEx tFailEx 7 SaveOutcome.ok).record.result =
      some (RVal.errTriple (some "ECONN") (some "send failed") (some 500)) ∧
    (msend mSentEx tFailEx 7 SaveOutcome.ok).cbError = none := by
  refine ⟨rfl, rfl, rfl⟩

/-- C1 (amended): for every record whose transport send reports an
error, _send sets failedAt to the current time, leaves sentAt as it was,
normalizes a structured error to its code, message and status triple,
stores it as the result of the record, emits the send-error event when the
transport exposes an event sink, and still persists the record; however
the normalized error is not propagated to the completion
callback of the caller — the callback receives the persistence outcome instead: a null
error together with the saved record when the save succeeds, or the save
error when it fails. -/
theorem c1_send_error_recorded (m : Message) (hq : Bool) (e : JsSendError)
    (now : Nat) (save : SaveOutcome) :
    (msend m ⟨true, hq, TransportOutcome.failure e⟩ now save).record.failedAt
      = some now ∧
    (msend m ⟨true, hq, TransportOutcome.failure e⟩ now save).record.sentAt
      = m.sentAt ∧
    (msend m ⟨true, hq, TransportOutcome.failure e⟩ now save).record.result
      = some (normalizeSendError e) ∧
    (hq = true →
      QEvent.sentError (normalizeSendError e)
        ∈ (msend m ⟨true, hq, TransportOutcome.failure e⟩ now save).events) ∧
    (save = SaveOutcome.ok →
      (msend m ⟨true, hq, TransportOutcome.failure e⟩ now save).cbError = none ∧
      (msend m ⟨true, hq, TransportOutcome.failure e⟩ now save).cbMessage
        = some (msend m ⟨true, hq, TransportOutcome.failure e⟩ now save).record) ∧
    (∀ se : RVal, save = SaveOutcome.fail se →
      (msend m ⟨true, hq, TransportOutcome.failure e⟩ now save).cbError = some se) := by
  cases save <;> cases hq <;>
    refine ⟨rfl, rfl, rfl, ?_, ?_, ?_⟩ <;>
    simp [msend]

/-- C1 witness: the amended claim evaluated at the already-sent example
record, the concrete failing transport and a succeeding save. -/
theorem c1_witness :
    (msend mEx tFailEx 3 SaveOutcome.ok).record.failedAt = some 3 ∧
    QEvent.sentError (RVal.errTriple (some "ECONN") (some "send failed") (some 500))
      ∈ (msend mEx tFailEx 3 SaveOutcome.ok).events ∧
    (msend mEx tFailEx 3 SaveOutcome.ok).cbError = none := by
  have h := c1_send_error_recorded mEx true
    (JsSendError.errInst (some "ECONN") (some "send failed") (some 500)) 3
    SaveOutcome.ok
  exact ⟨h.1, h.2.2.2.1 rfl, (h.2.2.2.2.1 rfl).1⟩

/-- C5: a fake send sets sentAt to the current time, attaches the
synthetic success payload on the record, never invokes a transport,
leaves failedAt absent when it was absent, and on save success the
callback receives the updated record with no error; the record passed to
save is exactly the updated record. -/
theorem c5_fake_send (m : Message) (t : Transport) (now : Nat)
    (save : SaveOutcome) (hf : m.failedAt = none) :
    (send m true t now save).record.sentAt = some now ∧
    (send m true t now save).record.response = some RVal.msgSuccess ∧
    (send m true t now save).transportInvoked = false ∧
    (send m true t now save).record.failedAt = none ∧
    (save = SaveOutcome.ok →
      (send m true t now save).cbError = none ∧
      (send m true t now save).cbMessage = some (send m true t now save).record) := by
  cases save <;>
    exact ⟨rfl, rfl, rfl, hf, by simp [send]⟩

/-- C5 witness: the fake send of the example record at time 11. -/
theorem c5_witness :
    (send mEx true tFailEx 11 SaveOutcome.ok).record.sentAt = some 11 ∧
    (send mEx true tFailEx 11 SaveOutcome.ok).transportInvoked = false ∧
    (send mEx true tFailEx 11 SaveOutcome.ok).record.failedAt = none := by
  have h := c5_fake_send mEx tFailEx 11 SaveOutcome.ok rfl
  exact ⟨h.1, h.2.2.1, h.2.2.2.1⟩

/-- C3: queue in Pull mode forces state Unknown, persists the record,
emits the queue-success event when the save succeeds, and never creates
a job whatever the save outcome; queue in Push mode with a succeeding
save creates exactly one job, on the queueName of the record, carrying the
persisted record, with the priority of the record, the attempts option
defaulting to 3 and the backoff strategy defaulting to exponential. -/
theorem c3_queue_modes (m : Message) (att : Option Nat) (bo : Option String)
    (save : SaveOutcome) (jobOk : Bool) :
    (m.mode = SEND_MODE_PULL →
      (queue m att bo save jobOk).jobs = [] ∧
      (queue m att bo save jobOk).record = { m with state := STATE_UNKNOWN } ∧
      (save = SaveOutcome.ok →
        (queue m att bo save jobOk).events
          = [QEvent.queueSuccess { m with state := STATE_UNKNOWN }])) ∧
    (m.mode = SEND_MODE_PUSH → save = SaveOutcome.ok →
      (queue m att bo save jobOk).record = m ∧
      (queue m att bo save jobOk).jobs
        = [{ queueName := m.queueName, payload := m, priority := m.priority,
             attempts := att.getD 3, backoff := bo.getD "exponential" }]) := by
  constructor
  · intro hpull
    have hb : (m.mode == SEND_MODE_PULL) = true := by
      simp [hpull]
    cases save <;> simp [queue, hb]
  · intro hpush hsave
    subst hsave
    have hb : (m.mode == SEND_MODE_PULL) = false := by
      simp [hpush, SEND_MODE_PUSH, SEND_MODE_PULL]
    simp [queue, hb]

/-- C3 witness: the Push mode example record queued with no options and
a succeeding save yields exactly one job with attempts 3 and
exponential backoff; the Pull mode variant yields no job and the forced
Unknown state. -/
theorem c3_witness :
    (queue mSentEx none none SaveOutcome.ok true).jobs
      = [{ queueName := "email", payload := mSentEx, priority := "normal",
           attempts := 3, backoff := "exponential" }] ∧
    (queue { mSentEx with mode := "Pull", state := "Queued" } none none
        SaveOutcome.ok true).jobs = [] ∧
    (queue { mSentEx with mode := "Pull", state := "Queued" } none none
        SaveOutcome.ok true).record.state = "Unknown" := by
  have hpush := (c3_queue_modes mSentEx none none SaveOutcome.ok true).2 rfl rfl
  have hpull := (c3_queue_modes { mSentEx with mode := "Pull", state := "Queued" }
    none none SaveOutcome.ok true).1 rfl
  refine ⟨?_, hpull.1, ?_⟩
  · rw [hpush.2]; rfl
  · exact (congrArg Message.state hpull.2.1).trans rfl

/-- When a key is not bound by a criteria object, no entry of the object
carries it. -/
theorem lookupC_none_key_ne (c : Criteria) (k : String) (h : lookupC c k = none) :
    ∀ kv ∈ c, (kv.1 == k) = false := by
  induction c with
  | nil => intro kv hkv; cases hkv
  | cons hd tl ih =>
    obtain ⟨k1, v1⟩ := hd
    intro kv hkv
    unfold lookupC at h
    by_cases hk : (k1 == k) = true
    · rw [if_pos hk] at h; cases h
    · rw [if_neg hk] at h
      rcases List.mem_cons.mp hkv with rfl | hkv2
      · simpa using hk
      · exact ih h kv hkv2

/-- Merging a single-key default under a criteria object that does not
bind that key prepends the default entry and keeps the criteria. -/
theorem mergeCriteria_single_of_none (k : String) (d : QVal) (c : Criteria)
    (h : lookupC c k = none) :
    mergeCriteria [(k, d)] c = (k, d) :: c := by
  unfold mergeCriteria
  rw [List.map_cons, List.map_nil, h]
  simp only [List.cons_append, List.nil_append, List.cons.injEq, true_and]
  apply List.filter_eq_self.mpr
  intro kv hkv
  have hne : kv.1 ≠ k := by
    have hb := lookupC_none_key_ne c k h kv hkv
    intro hEq
    rw [hEq] at hb
    simp at hb
  show (lookupC [(k, d)] kv.1).isNone = true
  unfold lookupC
  rw [if_neg (by simpa using hne.symm)]
  rfl

/-- The merged unsent criteria keep the sentAt-null predicate in front
when the caller criteria do not bind sentAt. -/
theorem unsentCriteria_of_none (c : Criteria) (h : lookupC c "sentAt" = none) :
    unsentCriteria c = ("sentAt", QVal.vnull) :: c :=
  mergeCriteria_single_of_none "sentAt" QVal.vnull c h

/-- The merged sent criteria keep the sentAt-not-null predicate in front
when the caller criteria do not bind sentAt. -/
theorem sentCriteria_of_none (c : Criteria) (h : lookupC c "sentAt" = none) :
    sentCriteria c = ("sentAt", QVal.vne QVal.vnull) :: c :=
  mergeCriteria_single_of_none "sentAt" (QVal.vne QVal.vnull) c h

/-- Matching the sentAt-null entry is exactly the absence of sentAt. -/
theorem matchQVal_sentAt_null (m : Message) :
    matchQVal (fieldVal m "sentAt") QVal.vnull = decide (m.sentAt = none) := by
  cases hm : m.sentAt <;> simp [matchQVal, fieldVal, hm]

/-- C7 counterexample: the lodash merge puts the caller criteria after
the built-in predicate, so a caller criteria binding sentAt replaces the
predicate instead of being merged under it: unsent called with the
sentAt-not-null criteria queries for sentAt not null (the unsent
predicate is gone), and sent called with the sentAt-null criteria
queries for sentAt null. -/
theorem c7_counterexample :
    lookupC (unsentCriteria [("sentAt", QVal.vne QVal.vnull)]) "sentAt"
      = some (QVal.vne QVal.vnull) ∧
    lookupC (sentCriteria [("sentAt", QVal.vnull)]) "sentAt" = some QVal.vnull ∧
    QVal.vne QVal.vnull ≠ QVal.vnull := by
  refine ⟨rfl, rfl, by decide⟩

/-- C7 (amended): criteria are merged over the built-in predicate with
the caller criteria taking precedence: whenever the supplied criteria do
not themselves bind sentAt, the resulting query retains the built-in
unsent (sentAt null) or sent (sentAt not null) predicate, and every
entry of the supplied criteria is kept in the merged query; a criteria
entry binding sentAt overrides the built-in predicate. -/
theorem c7_criteria_merge (c : Criteria) (h : lookupC c "sentAt" = none) :
    lookupC (unsentCriteria c) "sentAt" = some QVal.vnull ∧
    lookupC (sentCriteria c) "sentAt" = some (QVal.vne QVal.vnull) ∧
    (∀ kv ∈ c, kv ∈ unsentCriteria c ∧ kv ∈ sentCriteria c) := by
  rw [unsentCriteria_of_none c h, sentCriteria_of_none c h]
  refine ⟨?_, ?_, ?_⟩
  · unfold lookupC; rfl
  · unfold lookupC; rfl
  · intro kv hkv
    exact ⟨List.mem_cons_of_mem _ hkv, List.mem_cons_of_mem _ hkv⟩

/-- C7 witness: with a criteria binding only the from field, both query
helpers retain their sentAt predicate and keep the criteria entry. -/
theorem c7_witness :
    lookupC (unsentCriteria [("from", QVal.vstr "a@x.com")]) "sentAt"
      = some QVal.vnull ∧
    lookupC (sentCriteria [("from", QVal.vstr "a@x.com")]) "sentAt"
      = some (QVal.vne QVal.vnull) ∧
    ("from", QVal.vstr "a@x.com") ∈ unsentCriteria [("from", QVal.vstr "a@x.com")] := by
  have h := c7_criteria_merge [("from", QVal.vstr "a@x.com")] (by decide)
  exact ⟨h.1, h.2.1, (h.2.2 _ (List.mem_singleton.mpr rfl)).1⟩

/-- A concrete succeeding echo transport without an event sink. -/
def tEchoEx : Transport := ⟨true, false, TransportOutcome.success RVal.msgSuccess⟩

/-- A criteria binding sentAt to the not-null operator object. -/
def cNeEx : Criteria := [("sentAt", QVal.vne QVal.vnull)]

/-- C6 counterexample: resend with a criteria binding sentAt to not-null
invokes send on an already-sent record (its sentAt is present) and
overwrites its sentAt — the built-in unsent restriction was replaced by
the caller criteria, so sent records are neither excluded nor left
untouched. -/
theorem c6_counterexample :
    mSentEx.sentAt = some 5 ∧
    (resend [mSentEx] cNeEx (fun _ => tEchoEx) 9 (fun _ => SaveOutcome.ok)).1
      = [send mSentEx false tEchoEx 9 SaveOutcome.ok] ∧
    (send mSentEx false tEchoEx 9 SaveOutcome.ok).record.sentAt = some 9 := by
  refine ⟨rfl, ?_, rfl⟩
  rfl

/-- C6 (amended): for every criteria that does not itself bind sentAt,
resend invokes send exactly on the records matching the criteria whose
sentAt is absent; records with sentAt present are excluded and left
unchanged, and an empty matched set yields an empty aggregate rather
than an error. A criteria binding sentAt overrides the unsent
restriction. -/
theorem c6_resend_unsent_only (store : List Message) (c : Criteria)
    (tr : Message → Transport) (now : Nat) (sv : Message → SaveOutcome)
    (h : lookupC c "sentAt" = none) :
    unsent store c
      = store.filter (fun m => decide (m.sentAt = none) && matchesCriteria c m) ∧
    (∀ m : Message, m.sentAt ≠ none → resendTouch c tr now sv m = m) ∧
    (unsent store c = [] → (resend store c tr now sv).1 = []) := by
  have hmatch : ∀ m : Message,
      matchesCriteria (unsentCriteria c) m
        = (decide (m.sentAt = none) && matchesCriteria c m) := by
    intro m
    rw [unsentCriteria_of_none c h]
    unfold matchesCriteria
    rw [List.all_cons, matchQVal_sentAt_null]
  refine ⟨?_, ?_, ?_⟩
  · unfold unsent findC
    exact List.filter_congr (fun m _ => hmatch m)
  · intro m hm
    unfold resendTouch
    rw [hmatch m]
    simp [hm]
  · intro hempty
    unfold resend
    rw [hempty, List.map_nil]

/-- C6 witness: with a from criteria, the unsent example record is
matched and the already-sent example record is excluded and left
untouched by resend, at concrete transport and save behaviours. -/
theorem c6_witness :
    resendTouch [("from", QVal.vstr "a@x.com")] (fun _ => tEchoEx) 9
        (fun _ => SaveOutcome.ok) mSentEx = mSentEx ∧
    unsent [mEx, mSentEx] [("from", QVal.vstr "a@x.com")]
      = [mEx, mSentEx].filter (fun m => decide (m.sentAt = none) &&
          matchesCriteria [("from", QVal.vstr "a@x.com")] m) := by
  have h := c6_resend_unsent_only [mEx, mSentEx] [("from", QVal.vstr "a@x.com")]
    (fun _ => tEchoEx) 9 (fun _ => SaveOutcome.ok) (by decide)
  exact ⟨h.2.1 mSentEx (by decide), h.1⟩

/-- C8: the worker entry point looks the record up by the id embedded in
the job payload; when a record is found it is sent and the callback
outcome of send becomes the job completion; when no record is found the
job completes successfully (no error, no message) and the store is
untouched. -/
theorem c8_process (store : List Message) (jid : String) (t : Transport)
    (now : Nat) (save : SaveOutcome) :
    (∀ m : Message, findById store jid = some m →
      (process store jid t now save).cbError = (send m false t now save).cbError ∧
      (process store jid t now save).cbMessage
        = (send m false t now save).cbMessage) ∧
    (findById store jid = none →
      process store jid t now save
        = { cbError := none, cbMessage := none, store := store }) := by
  constructor
  · intro m hm
    unfold process
    rw [hm]
    exact ⟨rfl, rfl⟩
  · intro hm
    unfold process
    rw [hm]

/-- C8 witness: processing a job for the stored already-sent record
propagates the send callback outcome, and processing a job whose record
id matches nothing completes with no error and no change. -/
theorem c8_witness :
    (process [mEx, mSentEx] "m2" tEchoEx 4 SaveOutcome.ok).cbError
      = (send mSentEx false tEchoEx 4 SaveOutcome.ok).cbError ∧
    process [mEx, mSentEx] "zzz" tEchoEx 4 SaveOutcome.ok
      = { cbError := none, cbMessage := none, store := [mEx, mSentEx] } := by
  have h1 := c8_process [mEx, mSentEx] "m2" tEchoEx 4 SaveOutcome.ok
  have h2 := c8_process [mEx, mSentEx] "zzz" tEchoEx 4 SaveOutcome.ok
  exact ⟨(h1.1 mSentEx (by decide)).1, h2.2 (by decide)⟩

end Open311
